import Mathlib

/-!
Verification of the Activity-Windowed Session Manager of BPSR-PSO.

The embedding below translates the `FightHistoryManager` class
(`src/unnamed/part_000`) and the fight-timeout route of the API router
(`src/unnamed/part_001`) into Lean definitions.  JS `Map` objects become
insertion-ordered association lists and `Date.now()` becomes an explicit
clock argument `now`.  The `startNewFight` call inside `recordActivity`
is not awaited and `startNewFight` is `async`, so in the source its body
runs in a later microtask: `recordActivity` first runs its synchronous
remainder (`lastActivityTime` update and the stats update against the
still-current fight), and the deferred transition runs afterwards,
before the next top-level call observes the state.  The embedding keeps
exactly this order.  The mutual-exclusion `Lock` (`models/Lock.js`, not
among the sources) is modelled as granted immediately to its single
waiter.  Participant snapshots (`userStats`) are opaque data owned by
the external capture layer and appear in no claim, so they are omitted
from the fight record.
-/

set_option linter.all false

namespace BPSR

/-- Cumulative statistics across all fights (`this.cumulativeStats` in the
constructor of `FightHistoryManager`). -/
structure CumulativeStats where
  totalDamage : Int
  totalHealing : Int
  totalFights : Nat
  totalDuration : Int
  startTime : Int
deriving DecidableEq

/-- One fight record, as created by `startNewFight`.  `endTime` is `none`
until the first stats update or finalization (JS `null`). -/
structure Fight where
  id : String
  startTime : Int
  endTime : Option Int
  duration : Int
  totalDamage : Int
  totalHealing : Int
  isActive : Bool
deriving DecidableEq

/-- Lookup in an insertion-ordered association list (JS `Map.prototype.get`):
returns the first binding of the key. -/
def mapGet (l : List (String × Fight)) (k : String) : Option Fight :=
  match l with
  | [] => none
  | (k1, v1) :: rest => if k1 = k then some v1 else mapGet rest k

/-- Update of an insertion-ordered association list (JS `Map.prototype.set`):
replaces the first binding of the key in place, or appends a new binding. -/
def mapSet (l : List (String × Fight)) (k : String) (v : Fight) : List (String × Fight) :=
  match l with
  | [] => [(k, v)]
  | (k1, v1) :: rest => if k1 = k then (k, v) :: rest else (k1, v1) :: mapSet rest k v

/-- The keys of the fight map, in insertion order. -/
def keys (l : List (String × Fight)) : List String := l.map Prod.fst

/-- Number of entries whose fight is still active. -/
def countActiveL (l : List (String × Fight)) : Nat :=
  (l.filter fun p => p.2.isActive).length

/-- Number of entries whose fight has been finalized. -/
def countInactiveL (l : List (String × Fight)) : Nat :=
  (l.filter fun p => !p.2.isActive).length

/-- The full mutable state of `FightHistoryManager`. -/
structure Manager where
  fights : List (String × Fight)
  currentFightId : Option String
  currentFightStartTime : Option Int
  lastActivityTime : Int
  fightTimeout : Int
  cumulativeStats : CumulativeStats
deriving DecidableEq

/-- Fight identifiers are derived from the creation timestamp:
`` `fight_${timestamp}` `` in `startNewFight`. -/
def fightId (timestamp : Int) : String := "fight_" ++ toString timestamp

/-- Constructor state of `FightHistoryManager`: empty map, no current fight,
`lastActivityTime = 0`, 15000 ms timeout, zeroed cumulative stats stamped
with the construction-time clock. -/
def initManager (now : Int) : Manager :=
  { fights := []
    currentFightId := none
    currentFightStartTime := none
    lastActivityTime := 0
    fightTimeout := 15000
    cumulativeStats :=
      { totalDamage := 0, totalHealing := 0, totalFights := 0
        totalDuration := 0, startTime := now } }

/-- The boundary decision computed at the top of `recordActivity`:
`!this.currentFightId || (this.lastActivityTime > 0 && (timestamp - this.lastActivityTime) > this.fightTimeout)`. -/
def shouldStartNewFight (m : Manager) (timestamp : Int) : Bool :=
  m.currentFightId.isNone ||
    (decide (m.lastActivityTime > 0) &&
      decide (timestamp - m.lastActivityTime > m.fightTimeout))

/-- `finalizeCurrentFight` (part_000 lines 146-165): stamps the current fight
with the wall clock, marks it inactive and folds its totals into the
cumulative stats.  There is no `isActive` guard in the source, and
`currentFightId` is deliberately not cleared here (line 164). -/
def finalizeCurrentFight (m : Manager) (now : Int) : Manager :=
  match m.currentFightId with
  | none => m
  | some fid =>
    match mapGet m.fights fid with
    | none => m
    | some fight =>
      let fight1 : Fight :=
        { fight with
          endTime := some now
          duration := now - fight.startTime
          isActive := false }
      { m with
        fights := mapSet m.fights fid fight1
        cumulativeStats :=
          { m.cumulativeStats with
            totalDamage := m.cumulativeStats.totalDamage + fight1.totalDamage
            totalHealing := m.cumulativeStats.totalHealing + fight1.totalHealing
            totalFights := m.cumulativeStats.totalFights + 1
            totalDuration := m.cumulativeStats.totalDuration + fight1.duration } }

/-- The fresh fight object created by `startNewFight` (part_000 lines 77-86). -/
def fightRecordAt (timestamp : Int) : Fight :=
  { id := fightId timestamp
    startTime := timestamp
    endTime := none
    duration := 0
    totalDamage := 0
    totalHealing := 0
    isActive := true }

/-- `startNewFight` (part_000 lines 60-95): finalizes the previous fight if one
exists, then installs a fresh active fight keyed by `fight_<timestamp>`. -/
def startNewFight (m : Manager) (now timestamp : Int) : Manager :=
  let m1 := if m.currentFightId.isSome then finalizeCurrentFight m now else m
  let fid := fightId timestamp
  { m1 with
    currentFightId := some fid
    currentFightStartTime := some timestamp
    fights := mapSet m1.fights fid (fightRecordAt timestamp) }

/-- `updateCurrentFightStats` (part_000 lines 119-141): adds the value to the
matching accumulator (`damage` / `healing`; any other type adds nothing),
then unconditionally stamps `endTime = Date.now()` and recomputes
`duration = endTime - startTime`. -/
def updateCurrentFightStats (m : Manager) (now : Int) (activityType : String) (value : Int) :
    Manager :=
  match m.currentFightId with
  | none => m
  | some fid =>
    match mapGet m.fights fid with
    | none => m
    | some fight =>
      let fight1 : Fight :=
        if activityType = "damage" then
          { fight with totalDamage := fight.totalDamage + value }
        else if activityType = "healing" then
          { fight with totalHealing := fight.totalHealing + value }
        else fight
      let fight2 : Fight :=
        { fight1 with endTime := some now, duration := now - fight1.startTime }
      { m with fights := mapSet m.fights fid fight2 }

/-- `recordActivity` (part_000 lines 36-54): evaluates the boundary decision
(line 38) and, if it fires, calls `startNewFight` without awaiting it
(line 42) — the `async` body is deferred to a microtask.  The synchronous
remainder then runs first: `lastActivityTime := timestamp` (line 48) and,
if a current fight exists (the old pointer, line 51), the stats update
against that still-current fight.  The deferred `startNewFight` body
(lines 60-95) runs afterwards, before the next observation point; the
lock it awaits (`models/Lock.js`, absent from the sources) is granted
immediately to its single waiter.  Consequently a boundary-crossing
activity lands in the *old* fight, and is dropped when no fight exists
yet. -/
def recordActivity (m : Manager) (now timestamp : Int) (activityType : String) (value : Int) :
    Manager :=
  let should := shouldStartNewFight m timestamp
  let m2 := { m with lastActivityTime := timestamp }
  let m3 :=
    if m2.currentFightId.isSome then updateCurrentFightStats m2 now activityType value else m2
  if should then startNewFight m3 now timestamp else m3

/-- `checkForInactivity` (part_000 lines 398-411): on the watchdog tick, if a
current fight exists, `lastActivityTime > 0` and the gap exceeds the
timeout, finalizes the current fight and clears the current pointer. -/
def checkForInactivity (m : Manager) (now currentTime : Int) : Manager :=
  if m.currentFightId.isSome && decide (m.lastActivityTime > 0) then
    if currentTime - m.lastActivityTime > m.fightTimeout then
      let m1 := finalizeCurrentFight m now
      { m1 with currentFightId := none, currentFightStartTime := none }
    else m
  else m

/-- `clearHistory` (part_000 lines 378-392): empties the map, clears the
current pointer and `lastActivityTime`, and resets the cumulative stats
with a fresh `startTime`. -/
def clearHistory (m : Manager) (now : Int) : Manager :=
  { fights := []
    currentFightId := none
    currentFightStartTime := none
    lastActivityTime := 0
    fightTimeout := m.fightTimeout
    cumulativeStats :=
      { totalDamage := 0, totalHealing := 0, totalFights := 0
        totalDuration := 0, startTime := now } }

/-- `updateFightTimeout` (part_000 lines 439-442): sets the timeout
unconditionally; the manager itself performs no range validation. -/
def updateFightTimeout (m : Manager) (timeoutMs : Int) : Manager :=
  { m with fightTimeout := timeoutMs }

/-- `getCurrentFight` (part_000 lines 200-203). -/
def getCurrentFight (m : Manager) : Option Fight :=
  match m.currentFightId with
  | none => none
  | some fid => mapGet m.fights fid

/-- The object returned by `getCumulativeStats` (part_000 lines 282-288): the
cumulative stats spread together with the current fight, with `totalFights`
overridden by the live map size `this.fights.size`. -/
structure CumulativeView where
  totalDamage : Int
  totalHealing : Int
  totalFights : Nat
  totalDuration : Int
  startTime : Int
  currentFight : Option Fight
deriving DecidableEq

/-- `getCumulativeStats` (part_000 lines 282-288). -/
def getCumulativeStats (m : Manager) : CumulativeView :=
  { totalDamage := m.cumulativeStats.totalDamage
    totalHealing := m.cumulativeStats.totalHealing
    totalFights := m.fights.length
    totalDuration := m.cumulativeStats.totalDuration
    startTime := m.cumulativeStats.startTime
    currentFight := getCurrentFight m }

/-- The structured content of `fight_history.json` as written by
`saveFightHistory` (part_000 lines 293-320).  The JSON byte layout is
outside the model (a declared spec non-goal); the file is modelled by the
structured data it carries. -/
structure HistoryData where
  fights : List (String × Fight)
  cumulativeStats : CumulativeStats
  lastSaved : Int
deriving DecidableEq

/-- `saveFightHistory` (part_000 lines 293-320): serializes every fight entry
field-for-field together with the cumulative stats and a save stamp. -/
def saveFightHistory (m : Manager) (now : Int) : HistoryData :=
  { fights := m.fights, cumulativeStats := m.cumulativeStats, lastSaved := now }

/-- `loadFightHistory` (part_000 lines 325-373): rebuilds `this.fights` by
inserting every persisted entry into a fresh map and replaces the
cumulative stats.  `currentFightId`, `currentFightStartTime` and
`lastActivityTime` are not touched. -/
def loadFightHistory (m : Manager) (d : HistoryData) : Manager :=
  { m with
    fights := d.fights.foldl (fun acc p => mapSet acc p.1 p.2) []
    cumulativeStats := d.cumulativeStats }

/-- The rejection message of the `/fight/timeout` route (part_001 line 305). -/
def invalidTimeoutMsg : String :=
  "Invalid timeout value. Must be between 5000 and 60000 milliseconds."

/-- The `/fight/timeout` POST handler (part_001 lines 300-315) for a numeric
body: rejects values outside [5000, 60000] with a 400 error and otherwise
applies `updateFightTimeout`.  Modelled from the spec: the
`userDataManager` delegation layer is not among the sources; per spec
sections 4.2 and 6 the endpoint applies `updateFightTimeout` to the session
manager after validation. -/
def postFightTimeout (m : Manager) (timeout : Int) : Except String Manager :=
  if timeout < 5000 || timeout > 60000 then Except.error invalidTimeoutMsg
  else Except.ok (updateFightTimeout m timeout)

/-- Runs the `/fight/timeout` route and keeps the state unchanged when the
request is rejected (the handler returns before touching the manager). -/
def applyFightTimeoutRoute (m : Manager) (timeout : Int) : Manager :=
  match postFightTimeout m timeout with
  | Except.ok m1 => m1
  | Except.error _ => m

/-- One call into the session manager, tagged with the wall clock observed
during the call. -/
inductive Op where
  | record (now timestamp : Int) (activityType : String) (value : Int)
  | check (now currentTime : Int)
  | forceNew (now timestamp : Int)
  | clear (now : Int)
deriving DecidableEq

/-- Interprets one call (`forceStartNewFight` is `startNewFight`,
part_000 lines 431-433). -/
def runOp (m : Manager) : Op → Manager
  | Op.record now t ty v => recordActivity m now t ty v
  | Op.check now t => checkForInactivity m now t
  | Op.forceNew now t => startNewFight m now t
  | Op.clear now => clearHistory m now

/-- Interprets a call sequence, left to right. -/
def runOps (m : Manager) (ops : List Op) : Manager := ops.foldl runOp m

/-- The fight id a call would create in state `m`, when it creates one. -/
def createdId (m : Manager) : Op → Option String
  | Op.record _ t _ _ => if shouldStartNewFight m t then some (fightId t) else none
  | Op.forceNew _ t => some (fightId t)
  | _ => none

/-- A call is id-fresh in state `m` when any fight it creates is keyed by an
id not already present in the store. -/
def stepFresh (m : Manager) (op : Op) : Bool :=
  match createdId m op with
  | none => true
  | some fid => (mapGet m.fights fid).isNone

/-- A call sequence is id-fresh when every call is id-fresh in the state it
runs in. -/
def traceFresh (m : Manager) : List Op → Bool
  | [] => true
  | op :: rest => stepFresh m op && traceFresh (runOp m op) rest

/-- Every fight still flagged active is the one the current pointer names. -/
def ActiveIsCurrent (m : Manager) : Prop :=
  ∀ p ∈ m.fights, p.2.isActive = true → m.currentFightId = some p.1

/-- The inductive invariant behind the single-active property. -/
def InvA (m : Manager) : Prop := ActiveIsCurrent m ∧ (keys m.fights).Nodup

/-- Decidable check that the current pointer, when set, names a fight record
that exists and is still active. -/
def currentActiveB (m : Manager) : Bool :=
  match m.currentFightId with
  | none => true
  | some c =>
    match mapGet m.fights c with
    | none => false
    | some f => f.isActive

/-- The "loaded and consistent" store condition: the folded `totalFights`
counter equals the number of finalized fights in the store, and the current
pointer (if set) names an existing active fight. -/
def Consistent (m : Manager) : Prop :=
  m.cumulativeStats.totalFights = countInactiveL m.fights ∧ currentActiveB m = true

instance decidableConsistent (m : Manager) : Decidable (Consistent m) :=
  inferInstanceAs (Decidable
    (m.cumulativeStats.totalFights = countInactiveL m.fights ∧ currentActiveB m = true))

/-- A persisted fight that was still active when the snapshot was written,
used by the concrete crash-recovery scenarios. -/
def crashedFight : Fight :=
  { id := "fight_100"
    startTime := 100
    endTime := none
    duration := 0
    totalDamage := 7
    totalHealing := 0
    isActive := true }

/-- A snapshot file containing only `crashedFight`, still marked active. -/
def crashedHistory : HistoryData :=
  { fights := [("fight_100", crashedFight)]
    cumulativeStats :=
      { totalDamage := 0, totalHealing := 0, totalFights := 0
        totalDuration := 0, startTime := 0 }
    lastSaved := 0 }

/-- A freshly started manager that has loaded `crashedHistory`. -/
def loadedManager : Manager := loadFightHistory (initManager 0) crashedHistory

/-- A state with a current encounter, `lastActivityTime = 5` and the default
15000 ms timeout, exercising the boundary at 15005/15006. -/
def boundaryManager : Manager :=
  { initManager 0 with
    fights := [("fight_5", fightRecordAt 5)]
    currentFightId := some "fight_5"
    lastActivityTime := 5 }

/-- The state after `recordActivity(0, damage, 100)` from the constructor
state (spec scenario, step 1), with the clock at the event timestamp. -/
def scenarioM1 : Manager := recordActivity (initManager 0) 0 0 "damage" 100

/-- Scenario step 2: `recordActivity(5000, damage, 50)`. -/
def scenarioM2 : Manager := recordActivity scenarioM1 5000 5000 "damage" 50

/-- Scenario step 3: `recordActivity(20001, healing, 30)`. -/
def scenarioM3 : Manager := recordActivity scenarioM2 20001 20001 "healing" 30

/-- `fight_0` charged with 100 damage by a follow-up activity at t = 1 (the
t = 0 value was dropped: no current fight existed during its update). -/
def scenarioM1b : Manager := recordActivity scenarioM1 1 1 "damage" 100

/-- The state with one active encounter `fight_0` started at timestamp 0. -/
def doubleFinalizeBase : Manager := startNewFight (initManager 0) 0 0

/-- A trace in which a fight id is reused: `fight_5` is created, finalized by
the watchdog, and then created again by an out-of-order activity at the old
timestamp, overwriting the finalized record. -/
def collidingTrace : List Op :=
  [Op.record 5 5 "damage" 1, Op.check 20010 20010, Op.record 5 5 "damage" 1]

/-- An id-fresh trace: one fight, a watchdog finalization, then a later fight. -/
def freshTrace : List Op :=
  [Op.record 5 5 "damage" 100, Op.check 20010 20010, Op.record 40000 40000 "healing" 3]

/-- The fight record stored for `fight_0` in `scenarioM1b`: 100 damage applied
at clock 1. -/
def witnessFightBefore : Fight :=
  { id := "fight_0"
    startTime := 0
    endTime := some 1
    duration := 1
    totalDamage := 100
    totalHealing := 0
    isActive := true }

/-- The fight record for `fight_0` after 50 further damage at clock 5000. -/
def witnessFightAfter : Fight :=
  { id := "fight_0"
    startTime := 0
    endTime := some 5000
    duration := 5000
    totalDamage := 150
    totalHealing := 0
    isActive := true }

/-- One finalized fight at key `fight_0`. -/
def finishedFight : Fight :=
  { id := "fight_0"
    startTime := 0
    endTime := some 10
    duration := 10
    totalDamage := 3
    totalHealing := 1
    isActive := false }

/-- A store holding one finalized fight and one active fight, used to witness
the persistence round trip. -/
def roundtripStore : Manager :=
  { initManager 0 with
    fights := [("fight_0", finishedFight), ("fight_20", fightRecordAt 20)]
    currentFightId := some "fight_20" }

theorem mapGet_mapSet_self (l : List (String × Fight)) (k : String) (v : Fight) :
    mapGet (mapSet l k v) k = some v := by
  induction l with
  | nil => simp [mapGet, mapSet]
  | cons p rest ih =>
    obtain ⟨k1, v1⟩ := p
    by_cases h : k1 = k
    · simp [mapGet, mapSet, h]
    · simp [mapGet, mapSet, h, ih]

theorem mapGet_mapSet_ne (l : List (String × Fight)) (k k' : String) (v : Fight)
    (h : k' ≠ k) : mapGet (mapSet l k v) k' = mapGet l k' := by
  have hk : ¬ k = k' := fun hh => h hh.symm
  induction l with
  | nil =>
    simp only [mapSet, mapGet]
    rw [if_neg hk]
  | cons p rest ih =>
    obtain ⟨k1, v1⟩ := p
    by_cases h1 : k1 = k
    · subst h1
      simp only [mapSet, if_pos rfl, mapGet]
      rw [if_neg hk, if_neg hk]
    · simp only [mapSet, if_neg h1]
      by_cases h2 : k1 = k'
      · simp [mapGet, h2]
      · simp [mapGet, h2, ih]

theorem mem_keys_of_mem {l : List (String × Fight)} {p : String × Fight}
    (h : p ∈ l) : p.1 ∈ keys l := List.mem_map_of_mem Prod.fst h

theorem mapGet_eq_none_iff (l : List (String × Fight)) (k : String) :
    mapGet l k = none ↔ k ∉ keys l := by
  induction l with
  | nil => simp [mapGet, keys]
  | cons p rest ih =>
    obtain ⟨k1, v1⟩ := p
    by_cases h : k1 = k
    · simp [mapGet, keys, h]
    · simp only [mapGet, if_neg h, ih, keys, List.map_cons, List.mem_cons, not_or]
      exact ⟨fun hk => ⟨fun he => h he.symm, hk⟩, fun hk => hk.2⟩

theorem mapGet_mem {l : List (String × Fight)} {k : String} {f : Fight}
    (h : mapGet l k = some f) : (k, f) ∈ l := by
  induction l with
  | nil => simp [mapGet] at h
  | cons p rest ih =>
    obtain ⟨k1, v1⟩ := p
    by_cases h1 : k1 = k
    · subst h1
      simp [mapGet] at h
      simp [h]
    · simp [mapGet, h1] at h
      exact List.mem_cons_of_mem _ (ih h)

theorem mapSet_eq_append {l : List (String × Fight)} {k : String} (v : Fight)
    (h : k ∉ keys l) : mapSet l k v = l ++ [(k, v)] := by
  induction l with
  | nil => simp [mapSet]
  | cons p rest ih =>
    obtain ⟨k1, v1⟩ := p
    simp only [keys, List.map_cons, List.mem_cons] at h
    push_neg at h
    have h1 : ¬ k1 = k := fun hh => h.1 hh.symm
    simp only [mapSet, if_neg h1, List.cons_append, List.cons.injEq, true_and]
    exact ih h.2

theorem keys_mapSet_of_mem {l : List (String × Fight)} {k : String} (v : Fight)
    (h : k ∈ keys l) : keys (mapSet l k v) = keys l := by
  induction l with
  | nil => simp [keys] at h
  | cons p rest ih =>
    obtain ⟨k1, v1⟩ := p
    by_cases h1 : k1 = k
    · simp [mapSet, keys, h1]
    · simp only [keys, List.map_cons, List.mem_cons] at h
      rcases h with h | h
      · exact absurd h.symm h1
      · simp only [mapSet, if_neg h1, keys, List.map_cons]
        have := ih h
        simp only [keys] at this
        rw [this]

theorem nodup_keys_mapSet {l : List (String × Fight)} {k : String} (v : Fight)
    (h : (keys l).Nodup) : (keys (mapSet l k v)).Nodup := by
  by_cases hk : k ∈ keys l
  · rw [keys_mapSet_of_mem v hk]; exact h
  · rw [mapSet_eq_append v hk]
    simp only [keys, List.map_append, List.map_cons, List.map_nil]
    simp only [keys] at h hk
    rw [List.nodup_append]
    refine ⟨h, List.nodup_singleton _, ?_⟩
    intro a ha hb
    simp only [List.mem_singleton] at hb
    exact hk (hb ▸ ha)

theorem mem_mapSet_nodup {l : List (String × Fight)} {k : String} {v : Fight}
    {p : String × Fight} (hnd : (keys l).Nodup) (hp : p ∈ mapSet l k v) :
    p = (k, v) ∨ (p ∈ l ∧ p.1 ≠ k) := by
  induction l with
  | nil =>
    simp only [mapSet, List.mem_singleton] at hp
    exact Or.inl hp
  | cons q rest ih =>
    obtain ⟨k1, v1⟩ := q
    simp only [keys, List.map_cons, List.nodup_cons] at hnd
    by_cases h1 : k1 = k
    · subst h1
      rw [show mapSet ((k1, v1) :: rest) k1 v = (k1, v) :: rest from if_pos rfl] at hp
      rcases List.mem_cons.mp hp with hp | hp
      · exact Or.inl hp
      · refine Or.inr ⟨List.mem_cons_of_mem _ hp, fun hpk => ?_⟩
        exact hnd.1 (hpk ▸ mem_keys_of_mem hp)
    · rw [show mapSet ((k1, v1) :: rest) k v = (k1, v1) :: mapSet rest k v
        from if_neg h1] at hp
      rcases List.mem_cons.mp hp with hp | hp
      · refine Or.inr ⟨?_, ?_⟩
        · rw [hp]; exact List.mem_cons_self _ _
        · rw [hp]; exact h1
      · rcases ih hnd.2 hp with h | h
        · exact Or.inl h
        · exact Or.inr ⟨List.mem_cons_of_mem _ h.1, h.2⟩

theorem countInactive_mapSet {l : List (String × Fight)} {k : String} {f : Fight}
    (v : Fight) (h : mapGet l k = some f) :
    countInactiveL (mapSet l k v) + (if f.isActive then 0 else 1)
      = countInactiveL l + (if v.isActive then 0 else 1) := by
  induction l with
  | nil => simp [mapGet] at h
  | cons q rest ih =>
    obtain ⟨k1, v1⟩ := q
    by_cases h1 : k1 = k
    · subst h1
      rw [show mapGet ((k1, v1) :: rest) k1 = some v1 from if_pos rfl,
        Option.some.injEq] at h
      rw [← h]
      rw [show mapSet ((k1, v1) :: rest) k1 v = (k1, v) :: rest from if_pos rfl]
      simp only [countInactiveL, List.filter_cons]
      by_cases hf : v1.isActive <;> by_cases hv : v.isActive <;>
        simp [hf, hv] <;> omega
    · simp only [mapGet, if_neg h1] at h
      simp only [mapSet, if_neg h1, countInactiveL, List.filter_cons]
      have := ih h
      simp only [countInactiveL] at this
      by_cases hv1 : v1.isActive <;> simp [hv1] <;> omega

theorem countInactive_append_active {l : List (String × Fight)} {k : String} {v : Fight}
    (hv : v.isActive = true) :
    countInactiveL (l ++ [(k, v)]) = countInactiveL l := by
  simp [countInactiveL, List.filter_append, hv]

theorem countActive_le_one (l : List (String × Fight)) (co : Option String)
    (hnd : (keys l).Nodup) (h : ∀ p ∈ l, p.2.isActive = true → co = some p.1) :
    countActiveL l ≤ 1 := by
  induction l with
  | nil => simp [countActiveL]
  | cons q rest ih =>
    simp only [keys, List.map_cons, List.nodup_cons] at hnd
    by_cases hq : q.2.isActive
    · have hco := h q (List.mem_cons_self _ _) hq
      have hrest : rest.filter (fun p => p.2.isActive) = [] := by
        rw [List.filter_eq_nil]
        intro p hp
        intro hpa
        have := h p (List.mem_cons_of_mem _ hp) hpa
        rw [hco] at this
        have hk : p.1 = q.1 := (Option.some.inj this).symm
        exact hnd.1 (hk ▸ mem_keys_of_mem hp)
      simp [countActiveL, List.filter_cons, hq, hrest]
    · simp only [countActiveL, List.filter_cons, hq, if_neg, Bool.false_eq_true,
        not_false_eq_true, ite_false]
      exact ih hnd.2 fun p hp hpa => h p (List.mem_cons_of_mem _ hp) hpa

theorem foldl_mapSet_go (l : List (String × Fight)) :
    ∀ acc : List (String × Fight), (∀ p ∈ l, p.1 ∉ keys acc) → (keys l).Nodup →
      l.foldl (fun a p => mapSet a p.1 p.2) acc = acc ++ l := by
  induction l with
  | nil => intro acc _ _; simp
  | cons q rest ih =>
    intro acc hdisj hnd
    simp only [keys, List.map_cons, List.nodup_cons] at hnd
    have hq : q.1 ∉ keys acc := hdisj q (List.mem_cons_self _ _)
    simp only [List.foldl_cons]
    rw [show mapSet acc q.1 q.2 = acc ++ [(q.1, q.2)] from mapSet_eq_append _ hq]
    rw [ih (acc ++ [(q.1, q.2)]) ?_ hnd.2]
    · simp
    · intro p hp
      simp only [keys, List.map_append, List.map_cons, List.map_nil, List.mem_append,
        List.mem_singleton]
      push_neg
      refine ⟨hdisj p (List.mem_cons_of_mem _ hp), fun hpk => ?_⟩
      exact hnd.1 (hpk ▸ mem_keys_of_mem hp)

theorem foldl_mapSet_eq {l : List (String × Fight)} (hnd : (keys l).Nodup) :
    l.foldl (fun a p => mapSet a p.1 p.2) [] = l := by
  simpa using foldl_mapSet_go l [] (by simp [keys]) hnd

theorem invA_init (now : Int) : InvA (initManager now) := by
  constructor
  · intro p hp
    simp [initManager] at hp
  · simp [initManager, keys]

theorem finalize_fights_cases (m : Manager) (now : Int) :
    (finalizeCurrentFight m now = m) ∨
      (∃ c f, m.currentFightId = some c ∧ mapGet m.fights c = some f ∧
        (finalizeCurrentFight m now).fights =
          mapSet m.fights c
            { f with endTime := some now, duration := now - f.startTime, isActive := false } ∧
        (finalizeCurrentFight m now).currentFightId = m.currentFightId) := by
  cases hc : m.currentFightId with
  | none => exact Or.inl (by simp [finalizeCurrentFight, hc])
  | some c =>
    cases hg : mapGet m.fights c with
    | none => exact Or.inl (by simp [finalizeCurrentFight, hc, hg])
    | some f =>
      refine Or.inr ⟨c, f, rfl, hg, ?_, ?_⟩ <;> simp [finalizeCurrentFight, hc, hg]

theorem invA_finalize {m : Manager} (now : Int) (h : InvA m) :
    InvA (finalizeCurrentFight m now) := by
  rcases finalize_fights_cases m now with heq | ⟨c, f, hc, hg, hf, hcur⟩
  · rw [heq]; exact h
  · constructor
    · intro p hp hpa
      rw [hf] at hp
      rw [hcur]
      rcases mem_mapSet_nodup h.2 hp with hp | hp
      · rw [hp] at hpa
        simp at hpa
      · exact h.1 p hp.1 hpa
    · rw [hf]
      exact nodup_keys_mapSet _ h.2

theorem noActive_of_finalized {m : Manager} {c : String} (now : Int) (h : InvA m)
    (hc : m.currentFightId = some c) :
    ∀ p ∈ (finalizeCurrentFight m now).fights, p.2.isActive = false := by
  intro p hp
  cases hg : mapGet m.fights c with
  | none =>
    have heq : finalizeCurrentFight m now = m := by
      simp [finalizeCurrentFight, hc, hg]
    rw [heq] at hp
    cases hb : p.2.isActive with
    | false => rfl
    | true =>
      exfalso
      have hcur := h.1 p hp hb
      rw [hc] at hcur
      have hkc : p.1 = c := (Option.some.inj hcur).symm
      exact (mapGet_eq_none_iff m.fights c).mp hg (hkc ▸ mem_keys_of_mem hp)
  | some f =>
    have hcomp : (finalizeCurrentFight m now).fights =
        mapSet m.fights c
          { f with endTime := some now, duration := now - f.startTime, isActive := false } := by
      simp [finalizeCurrentFight, hc, hg]
    rw [hcomp] at hp
    rcases mem_mapSet_nodup h.2 hp with hp | hp
    · rw [hp]
    · cases hb : p.2.isActive with
      | false => rfl
      | true =>
        exfalso
        have hcur := h.1 p hp.1 hb
        rw [hc] at hcur
        exact hp.2 (Option.some.inj hcur).symm

theorem invA_start {m : Manager} (now t : Int) (h : InvA m) :
    InvA (startNewFight m now t) := by
  have hm1 : InvA (if m.currentFightId.isSome then finalizeCurrentFight m now else m) := by
    by_cases hc : m.currentFightId.isSome
    · rw [if_pos hc]; exact invA_finalize now h
    · rw [if_neg hc]; exact h
  have hnoact :
      ∀ p ∈ (if m.currentFightId.isSome then finalizeCurrentFight m now else m).fights,
        p.2.isActive = false := by
    intro p hp
    cases hc : m.currentFightId with
    | some c =>
      rw [hc] at hp
      simp only [Option.isSome_some, if_pos] at hp
      exact noActive_of_finalized now h hc p hp
    | none =>
      rw [hc] at hp
      simp only [Option.isSome_none, Bool.false_eq_true, if_false] at hp
      cases hb : p.2.isActive with
      | false => rfl
      | true =>
        exfalso
        have hcur := h.1 p hp hb
        rw [hc] at hcur
        exact Option.noConfusion hcur
  constructor
  · intro p hp hpa
    simp only [startNewFight] at hp ⊢
    rcases mem_mapSet_nodup hm1.2 hp with hp | hp
    · rw [hp]
    · rw [hnoact p hp.1] at hpa
      exact Bool.noConfusion hpa
  · simp only [startNewFight]
    exact nodup_keys_mapSet _ hm1.2

theorem update_cases (m : Manager) (now : Int) (ty : String) (v : Int) :
    (updateCurrentFightStats m now ty v = m) ∨
    (∃ fid fight f2, m.currentFightId = some fid ∧ mapGet m.fights fid = some fight ∧
      f2.isActive = fight.isActive ∧
      f2.totalDamage = fight.totalDamage + (if ty = "damage" then v else 0) ∧
      f2.totalHealing =
        fight.totalHealing + (if ty = "healing" ∧ ty ≠ "damage" then v else 0) ∧
      f2.endTime = some now ∧
      updateCurrentFightStats m now ty v = { m with fights := mapSet m.fights fid f2 }) := by
  cases hc : m.currentFightId with
  | none => exact Or.inl (by simp [updateCurrentFightStats, hc])
  | some fid =>
    cases hg : mapGet m.fights fid with
    | none => exact Or.inl (by simp [updateCurrentFightStats, hc, hg])
    | some fight =>
      by_cases hd : ty = "damage"
      · refine Or.inr ⟨fid, fight,
          { fight with
            totalDamage := fight.totalDamage + v
            endTime := some now
            duration := now - fight.startTime },
          rfl, hg, rfl, by simp [hd], by simp [hd], rfl, ?_⟩
        simp [updateCurrentFightStats, hc, hg, hd]
      · by_cases hh : ty = "healing"
        · refine Or.inr ⟨fid, fight,
            { fight with
              totalHealing := fight.totalHealing + v
              endTime := some now
              duration := now - fight.startTime },
            rfl, hg, rfl, by simp [hd], by simp [hh, hd], rfl, ?_⟩
          simp [updateCurrentFightStats, hc, hg, hd, hh]
        · refine Or.inr ⟨fid, fight,
            { fight with
              endTime := some now
              duration := now - fight.startTime },
            rfl, hg, rfl, by simp [hd], by simp [hh], rfl, ?_⟩
          simp [updateCurrentFightStats, hc, hg, hd, hh]

theorem update_currentFightId (m : Manager) (now : Int) (ty : String) (v : Int) :
    (updateCurrentFightStats m now ty v).currentFightId = m.currentFightId := by
  rcases update_cases m now ty v with heq | ⟨fid, fight, f2, _, _, _, _, _, _, heq⟩ <;>
    rw [heq]

theorem invA_update {m : Manager} (now : Int) (ty : String) (v : Int) (h : InvA m) :
    InvA (updateCurrentFightStats m now ty v) := by
  rcases update_cases m now ty v with heq | ⟨fid, fight, f2, hc, hg, ha, _, _, _, heq⟩
  · rw [heq]; exact h
  · rw [heq]
    constructor
    · intro p hp hpa
      rcases mem_mapSet_nodup h.2 hp with hp | hp
      · rw [hp, hc]
      · exact h.1 p hp.1 hpa
    · exact nodup_keys_mapSet _ h.2

theorem invA_record {m : Manager} (now t : Int) (ty : String) (v : Int) (h : InvA m) :
    InvA (recordActivity m now t ty v) := by
  have h2 : InvA { m with lastActivityTime := t } := ⟨h.1, h.2⟩
  have h3 : InvA (if ({ m with lastActivityTime := t } : Manager).currentFightId.isSome
      then updateCurrentFightStats { m with lastActivityTime := t } now ty v
      else { m with lastActivityTime := t }) := by
    by_cases hcs : ({ m with lastActivityTime := t } : Manager).currentFightId.isSome
    · rw [if_pos hcs]
      exact invA_update now ty v h2
    · rw [if_neg hcs]
      exact h2
  simp only [recordActivity]
  by_cases hs : shouldStartNewFight m t = true
  · rw [if_pos hs]
    exact invA_start now t h3
  · rw [if_neg hs]
    exact h3

theorem invA_check {m : Manager} (now t : Int) (h : InvA m) :
    InvA (checkForInactivity m now t) := by
  cases hc : m.currentFightId with
  | none => simpa [checkForInactivity, hc] using h
  | some c =>
    by_cases hl : m.lastActivityTime > 0
    · by_cases hgap : t - m.lastActivityTime > m.fightTimeout
      · have heq : checkForInactivity m now t =
            { finalizeCurrentFight m now with
              currentFightId := none, currentFightStartTime := none } := by
          simp [checkForInactivity, hc, hl, hgap]
        rw [heq]
        constructor
        · intro p hp hpa
          rw [noActive_of_finalized now h hc p hp] at hpa
          exact Bool.noConfusion hpa
        · exact (invA_finalize now h).2
      · simpa [checkForInactivity, hc, hl, hgap] using h
    · simpa [checkForInactivity, hc, hl] using h

theorem invA_clear {m : Manager} (now : Int) : InvA (clearHistory m now) := by
  constructor
  · intro p hp
    simp [clearHistory] at hp
  · simp [clearHistory, keys]

theorem invA_runOp {m : Manager} (op : Op) (h : InvA m) : InvA (runOp m op) := by
  cases op with
  | record now t ty v => exact invA_record now t ty v h
  | check now t => exact invA_check now t h
  | forceNew now t => exact invA_start now t h
  | clear now => exact invA_clear now

theorem invA_runOps {m : Manager} (ops : List Op) (h : InvA m) : InvA (runOps m ops) := by
  induction ops generalizing m with
  | nil => exact h
  | cons op rest ih => exact ih (invA_runOp op h)

theorem countActive_le_one_of_invA {m : Manager} (h : InvA m) :
    countActiveL m.fights ≤ 1 := by
  apply countActive_le_one m.fights m.currentFightId h.2
  intro p hp hpa
  exact (h.1 p hp hpa).symm ▸ rfl

theorem currentActiveB_some {m : Manager} {c : String} (hc : m.currentFightId = some c) :
    currentActiveB m =
      (match mapGet m.fights c with
        | none => false
        | some f => f.isActive) := by
  unfold currentActiveB
  rw [hc]

theorem currentActive_elim {m : Manager} {c : String} (h : currentActiveB m = true)
    (hc : m.currentFightId = some c) :
    ∃ f, mapGet m.fights c = some f ∧ f.isActive = true := by
  rw [currentActiveB_some hc] at h
  cases hg : mapGet m.fights c with
  | none =>
    rw [hg] at h
    simp at h
  | some f =>
    rw [hg] at h
    exact ⟨f, rfl, by simpa using h⟩

theorem finalize_count {m : Manager} {c : String} (now : Int) (h : Consistent m)
    (hc : m.currentFightId = some c) :
    (finalizeCurrentFight m now).cumulativeStats.totalFights
      = countInactiveL (finalizeCurrentFight m now).fights := by
  obtain ⟨f, hg, hact⟩ := currentActive_elim h.2 hc
  have hcount := countInactive_mapSet
    (f := f) (k := c) (l := m.fights)
    { f with endTime := some now, duration := now - f.startTime, isActive := false } hg
  have hfk : (finalizeCurrentFight m now).cumulativeStats.totalFights
      = m.cumulativeStats.totalFights + 1 := by
    simp [finalizeCurrentFight, hc, hg]
  have hff : (finalizeCurrentFight m now).fights
      = mapSet m.fights c
          { f with endTime := some now, duration := now - f.startTime, isActive := false } := by
    simp [finalizeCurrentFight, hc, hg]
  rw [hfk, hff, h.1]
  simp only [hact] at hcount
  simp at hcount
  omega

theorem finalize_mapGet_none {m : Manager} {k : String} (now : Int)
    (hk : mapGet m.fights k = none) :
    mapGet (finalizeCurrentFight m now).fights k = none := by
  cases hc : m.currentFightId with
  | none => simpa [finalizeCurrentFight, hc] using hk
  | some c =>
    cases hg : mapGet m.fights c with
    | none => simpa [finalizeCurrentFight, hc, hg] using hk
    | some f =>
      have hff : (finalizeCurrentFight m now).fights
          = mapSet m.fights c
              { f with endTime := some now, duration := now - f.startTime, isActive := false } := by
        simp [finalizeCurrentFight, hc, hg]
      rw [hff]
      have hkc : k ≠ c := by
        intro he
        rw [he, hg] at hk
        exact Option.noConfusion hk
      rw [mapGet_mapSet_ne _ _ _ _ hkc]
      exact hk

theorem consistent_start {m : Manager} (now t : Int) (h : Consistent m)
    (hfresh : mapGet m.fights (fightId t) = none) :
    Consistent (startNewFight m now t) := by
  have hm1count :
      (if m.currentFightId.isSome then finalizeCurrentFight m now else m).cumulativeStats.totalFights
        = countInactiveL
            (if m.currentFightId.isSome then finalizeCurrentFight m now else m).fights := by
    cases hc : m.currentFightId with
    | none => simpa using h.1
    | some c =>
      simp only [Option.isSome_some, if_pos]
      exact finalize_count now h hc
  have hm1fresh :
      mapGet (if m.currentFightId.isSome then finalizeCurrentFight m now else m).fights
        (fightId t) = none := by
    cases hc : m.currentFightId with
    | none => simpa using hfresh
    | some c =>
      simp only [Option.isSome_some, if_pos]
      exact finalize_mapGet_none now hfresh
  constructor
  · show (if m.currentFightId.isSome then finalizeCurrentFight m now else m).cumulativeStats.totalFights
      = countInactiveL
          (mapSet (if m.currentFightId.isSome then finalizeCurrentFight m now else m).fights
            (fightId t) (fightRecordAt t))
    rw [mapSet_eq_append _ ((mapGet_eq_none_iff _ _).mp hm1fresh)]
    rw [countInactive_append_active rfl]
    exact hm1count
  · show currentActiveB (startNewFight m now t) = true
    simp only [currentActiveB, startNewFight]
    rw [mapGet_mapSet_self]
    exact rfl

theorem consistent_update {m : Manager} (now : Int) (ty : String) (v : Int)
    (h : Consistent m) : Consistent (updateCurrentFightStats m now ty v) := by
  rcases update_cases m now ty v with heq | ⟨fid, fight, f2, hc, hg, ha, _, _, _, heq⟩
  · rw [heq]; exact h
  · obtain ⟨f, hgf, hact0⟩ := currentActive_elim h.2 hc
    rw [hgf] at hg
    have hff : f = fight := Option.some.inj hg
    have hact : fight.isActive = true := hff ▸ hact0
    constructor
    · rw [heq]
      show m.cumulativeStats.totalFights = countInactiveL (mapSet m.fights fid f2)
      have hcount := countInactive_mapSet (f := fight) (k := fid) (l := m.fights) f2
        (hff ▸ hgf)
      rw [ha] at hcount
      simp only [hact, if_pos] at hcount
      rw [h.1]
      omega
    · rw [heq]
      have hc2 : ({ m with fights := mapSet m.fights fid f2 } : Manager).currentFightId
          = some fid := hc
      rw [currentActiveB_some hc2]
      show (match mapGet (mapSet m.fights fid f2) fid with
        | none => false
        | some g => g.isActive) = true
      rw [mapGet_mapSet_self]
      show f2.isActive = true
      rw [ha, hact]

theorem update_mapGet_none {m : Manager} (now : Int) (ty : String) (v : Int) {k : String}
    (hk : mapGet m.fights k = none) :
    mapGet (updateCurrentFightStats m now ty v).fights k = none := by
  rcases update_cases m now ty v with heq | ⟨fid, fight, f2, hc, hg, _, _, _, _, heq⟩
  · rw [heq]
    exact hk
  · rw [heq]
    show mapGet (mapSet m.fights fid f2) k = none
    have hkf : k ≠ fid := by
      intro he
      rw [he, hg] at hk
      exact Option.noConfusion hk
    rw [mapGet_mapSet_ne _ _ _ _ hkf]
    exact hk

theorem consistent_record {m : Manager} (now t : Int) (ty : String) (v : Int)
    (h : Consistent m) (hfr : stepFresh m (Op.record now t ty v) = true) :
    Consistent (recordActivity m now t ty v) := by
  have h2 : Consistent { m with lastActivityTime := t } := ⟨h.1, h.2⟩
  have h3 : Consistent (if ({ m with lastActivityTime := t } : Manager).currentFightId.isSome
      then updateCurrentFightStats { m with lastActivityTime := t } now ty v
      else { m with lastActivityTime := t }) := by
    by_cases hcs : ({ m with lastActivityTime := t } : Manager).currentFightId.isSome
    · rw [if_pos hcs]
      exact consistent_update now ty v h2
    · rw [if_neg hcs]
      exact h2
  simp only [recordActivity]
  by_cases hs : shouldStartNewFight m t = true
  · rw [if_pos hs]
    apply consistent_start now t h3
    have hn : mapGet m.fights (fightId t) = none := by
      have hb : (mapGet m.fights (fightId t)).isNone = true := by
        simpa [stepFresh, createdId, hs] using hfr
      exact Option.isNone_iff_eq_none.mp hb
    by_cases hcs : ({ m with lastActivityTime := t } : Manager).currentFightId.isSome
    · rw [if_pos hcs]
      exact update_mapGet_none now ty v hn
    · rw [if_neg hcs]
      exact hn
  · rw [if_neg hs]
    exact h3

theorem consistent_check {m : Manager} (now t : Int) (h : Consistent m) :
    Consistent (checkForInactivity m now t) := by
  cases hc : m.currentFightId with
  | none => simpa [checkForInactivity, hc] using h
  | some c =>
    by_cases hl : m.lastActivityTime > 0
    · by_cases hgap : t - m.lastActivityTime > m.fightTimeout
      · have heq : checkForInactivity m now t =
            { finalizeCurrentFight m now with
              currentFightId := none, currentFightStartTime := none } := by
          simp [checkForInactivity, hc, hl, hgap]
        rw [heq]
        constructor
        · show (finalizeCurrentFight m now).cumulativeStats.totalFights
            = countInactiveL (finalizeCurrentFight m now).fights
          exact finalize_count now h hc
        · exact rfl
      · simpa [checkForInactivity, hc, hl, hgap] using h
    · simpa [checkForInactivity, hc, hl] using h

theorem consistent_clear {m : Manager} (now : Int) : Consistent (clearHistory m now) :=
  ⟨rfl, rfl⟩

theorem consistent_runOp {m : Manager} {op : Op} (h : Consistent m)
    (hfr : stepFresh m op = true) : Consistent (runOp m op) := by
  cases op with
  | record now t ty v => exact consistent_record now t ty v h hfr
  | check now t => exact consistent_check now t h
  | forceNew now t =>
    apply consistent_start now t h
    have hn : (mapGet m.fights (fightId t)).isNone = true := by
      simpa [stepFresh, createdId] using hfr
    exact Option.isNone_iff_eq_none.mp hn
  | clear now => exact consistent_clear now

theorem consistent_runOps {m : Manager} {ops : List Op} (h : Consistent m)
    (hfr : traceFresh m ops = true) : Consistent (runOps m ops) := by
  induction ops generalizing m with
  | nil => exact h
  | cons op rest ih =>
    simp only [traceFresh, Bool.and_eq_true] at hfr
    exact ih (consistent_runOp h hfr.1) hfr.2

theorem check_id_of_no_current {m : Manager} (now t : Int)
    (hc : m.currentFightId = none) : checkForInactivity m now t = m := by
  simp [checkForInactivity, hc]

theorem update_mapGet_other (m : Manager) (now : Int) (ty : String) (v : Int) {k : String}
    (hk : m.currentFightId ≠ some k) :
    mapGet (updateCurrentFightStats m now ty v).fights k = mapGet m.fights k := by
  rcases update_cases m now ty v with heq | ⟨fid, fight, f2, hc, hg, _, _, _, _, heq⟩
  · rw [heq]
  · rw [heq]
    show mapGet (mapSet m.fights fid f2) k = mapGet m.fights k
    apply mapGet_mapSet_ne
    intro he
    exact hk (by rw [he]; exact hc)

theorem recordActivity_current_of_should {m : Manager} (now t : Int) (ty : String)
    (v : Int) (hs : shouldStartNewFight m t = true) :
    (recordActivity m now t ty v).currentFightId = some (fightId t) := by
  simp only [recordActivity, hs, if_true, eq_self_iff_true]
  exact rfl

theorem recordActivity_current_of_not_should {m : Manager} (now t : Int) (ty : String)
    (v : Int) (hs : shouldStartNewFight m t = false) :
    (recordActivity m now t ty v).currentFightId = m.currentFightId := by
  simp only [recordActivity, hs, Bool.false_eq_true, if_false, update_currentFightId]
  by_cases hcs : m.currentFightId.isSome <;> simp [hcs, update_currentFightId]

theorem recordActivity_mapGet_other {m : Manager} (now t : Int) (ty : String) (v : Int)
    {k : String} (hc : m.currentFightId = none) (hk : fightId t ≠ k) :
    mapGet (recordActivity m now t ty v).fights k = mapGet m.fights k := by
  have hs : shouldStartNewFight m t = true := by simp [shouldStartNewFight, hc]
  simp only [recordActivity, hs, if_true, eq_self_iff_true]
  simp [startNewFight, hc]
  show mapGet (mapSet m.fights (fightId t) (fightRecordAt t)) k = mapGet m.fights k
  exact mapGet_mapSet_ne _ _ _ _ (fun h => hk h.symm)

/-- C1 (counterexample).  The claim quantifies over sequences that begin after
`loadSnapshot` restored an encounter saved with `isActive == true`: there the
single-active invariant fails, because `loadFightHistory` does not restore
`currentFightId`, so the next `recordActivity` creates a second active
encounter while the restored one stays active. -/
theorem claim1_counterexample :
    countActiveL (recordActivity loadedManager 1000 1000 "damage" 5).fights = 2 ∧
      ¬ countActiveL (recordActivity loadedManager 1000 1000 "damage" 5).fights ≤ 1 := by
  decide

/-- C1 (amended).  For every sequence of `recordActivity`, `checkForInactivity`,
`forceStartNewFight` and `clearHistory` calls starting from the constructor
state, at most one encounter in the store has `isActive == true` at every
observation point.  (The load-recovery prefix the original claim also covers
is excluded: see the counterexample.) -/
theorem claim1_single_active (now0 : Int) (ops : List Op) :
    countActiveL (runOps (initManager now0) ops).fights ≤ 1 :=
  countActive_le_one_of_invA (invA_runOps ops (invA_init now0))

/-- C2.  Boundary correctness of the detector used by `recordActivity`: with no
current encounter every activity starts a new encounter; with a current
encounter and `lastActivityTime = T > 0`, an activity at `T + W + 1` starts a
new encounter while an activity at any timestamp `≤ T + W` (including
out-of-order ones before `T`) does not; and the decision drives whether
`recordActivity` installs `fight_<timestamp>` as the new current encounter. -/
theorem claim2_boundary (m : Manager) (now t : Int) (ty : String) (v : Int) :
    (m.currentFightId = none → shouldStartNewFight m t = true) ∧
    (m.currentFightId.isSome = true → 0 < m.lastActivityTime →
      shouldStartNewFight m (m.lastActivityTime + m.fightTimeout + 1) = true ∧
      (t ≤ m.lastActivityTime + m.fightTimeout → shouldStartNewFight m t = false)) ∧
    (shouldStartNewFight m t = true →
      (recordActivity m now t ty v).currentFightId = some (fightId t)) ∧
    (shouldStartNewFight m t = false →
      (recordActivity m now t ty v).currentFightId = m.currentFightId) := by
  refine ⟨?_, ?_, ?_, ?_⟩
  · intro hc
    simp [shouldStartNewFight, hc]
  · intro hcs hl
    constructor
    · simp only [shouldStartNewFight, Bool.or_eq_true, Bool.and_eq_true, decide_eq_true_eq]
      right
      exact ⟨hl, by omega⟩
    · intro ht
      cases hb : shouldStartNewFight m t with
      | false => rfl
      | true =>
        exfalso
        simp only [shouldStartNewFight, Bool.or_eq_true, Bool.and_eq_true,
          decide_eq_true_eq] at hb
        rcases hb with hb | hb
        · rw [Option.isNone_iff_eq_none] at hb
          rw [hb] at hcs
          exact Bool.noConfusion hcs
        · omega
  · exact recordActivity_current_of_should now t ty v
  · exact recordActivity_current_of_not_should now t ty v

/-- C2 (witness): the boundary theorem applied at a concrete state. -/
theorem claim2_witness :
    boundaryManager.currentFightId.isSome = true ∧
    0 < boundaryManager.lastActivityTime ∧
    shouldStartNewFight boundaryManager
      (boundaryManager.lastActivityTime + boundaryManager.fightTimeout + 1) = true ∧
    shouldStartNewFight boundaryManager 15005 = false ∧
    shouldStartNewFight (initManager 0) 42 = true := by
  refine ⟨by decide, by decide, ?_, ?_, ?_⟩
  · exact ((claim2_boundary boundaryManager 0 15005 "damage" 1).2.1 (by decide) (by decide)).1
  · exact ((claim2_boundary boundaryManager 0 15005 "damage" 1).2.1 (by decide)
      (by decide)).2 (by decide)
  · exact (claim2_boundary (initManager 0) 0 42 "damage" 1).1 rfl

/-- C3 (counterexample).  Traced with the source's actual ordering (the
un-awaited async `startNewFight` body runs after the synchronous stats
update), the scenario refutes the claim at every step: the t = 0 damage 100
is dropped (no current fight exists during its update), so `fight_0` never
reaches 100 or 150; the t = 20001 healing 30 lands on `fight_0`, which is
finalized at 50 damage, while `fight_20001` is created empty; and
`getCumulativeStats()` reports `totalFights = 2` (live store size) with
`totalDamage = 50`, not 1 and 150. -/
theorem claim3_counterexample :
    (mapGet scenarioM1.fights (fightId 0)).map Fight.totalDamage = some 0 ∧
    ¬ (mapGet scenarioM1.fights (fightId 0)).map Fight.totalDamage = some 100 ∧
    (mapGet scenarioM3.fights (fightId 0)).map Fight.totalDamage = some 50 ∧
    ¬ (mapGet scenarioM3.fights (fightId 0)).map Fight.totalDamage = some 150 ∧
    (mapGet scenarioM3.fights (fightId 20001)).map Fight.totalHealing = some 0 ∧
    ¬ (mapGet scenarioM3.fights (fightId 20001)).map Fight.totalHealing = some 30 ∧
    (getCumulativeStats scenarioM3).totalFights = 2 ∧
    ¬ (getCumulativeStats scenarioM3).totalFights = 1 ∧
    (getCumulativeStats scenarioM3).totalDamage = 50 ∧
    ¬ (getCumulativeStats scenarioM3).totalDamage = 150 := by
  decide

/-- C3 (amended).  What the scenario actually yields under the source's
microtask ordering: the t = 0 damage 100 is dropped and `fight_0` is
created empty and current; the t = 5000 damage 50 brings `fight_0` to 50;
at t = 20001 the boundary fires, the healing 30 lands on the still-current
`fight_0`, which is then finalized with `totalDamage = 50` and
`totalHealing = 30`, and `fight_20001` is created empty and becomes
current; the folded `cumulativeStats` report `totalFights = 1`,
`totalDamage = 50`, `totalHealing = 30`, while `getCumulativeStats()`
reports `totalFights = 2` (live store size) and `totalDamage = 50`. -/
theorem claim3_scenario :
    (mapGet scenarioM1.fights (fightId 0)).map Fight.totalDamage = some 0 ∧
    (mapGet scenarioM1.fights (fightId 0)).map Fight.isActive = some true ∧
    scenarioM1.currentFightId = some (fightId 0) ∧
    (mapGet scenarioM2.fights (fightId 0)).map Fight.totalDamage = some 50 ∧
    (mapGet scenarioM2.fights (fightId 0)).map Fight.isActive = some true ∧
    (mapGet scenarioM3.fights (fightId 0)).map Fight.totalDamage = some 50 ∧
    (mapGet scenarioM3.fights (fightId 0)).map Fight.totalHealing = some 30 ∧
    (mapGet scenarioM3.fights (fightId 0)).map Fight.isActive = some false ∧
    scenarioM3.currentFightId = some (fightId 20001) ∧
    (mapGet scenarioM3.fights (fightId 20001)).map Fight.totalDamage = some 0 ∧
    (mapGet scenarioM3.fights (fightId 20001)).map Fight.totalHealing = some 0 ∧
    (mapGet scenarioM3.fights (fightId 20001)).map Fight.isActive = some true ∧
    scenarioM3.cumulativeStats.totalFights = 1 ∧
    scenarioM3.cumulativeStats.totalDamage = 50 ∧
    scenarioM3.cumulativeStats.totalHealing = 30 ∧
    (getCumulativeStats scenarioM3).totalFights = 2 ∧
    (getCumulativeStats scenarioM3).totalDamage = 50 := by
  decide

/-- C4 (code evaluated at the failing input).  `finalizeCurrentFight` has no
`isActive` guard and does not clear `currentFightId`, so invoking it twice
on the same encounter folds the encounter into `CumulativeStats` twice:
`totalFights` reaches 2 and `totalDuration` doubles, although the encounter
was already inactive after the first call. -/
theorem claim4_double_finalize :
    (mapGet (finalizeCurrentFight doubleFinalizeBase 1000).fights (fightId 0)).map
      Fight.isActive = some false ∧
    (finalizeCurrentFight doubleFinalizeBase 1000).cumulativeStats.totalFights = 1 ∧
    (finalizeCurrentFight (finalizeCurrentFight doubleFinalizeBase 1000)
      1000).cumulativeStats.totalFights = 2 ∧
    (finalizeCurrentFight (finalizeCurrentFight doubleFinalizeBase 1000)
      1000).cumulativeStats.totalDuration = 2000 := by
  decide

/-- C5 (counterexample).  Starting from the consistent constructor state, a
sequence of `recordActivity` and `checkForInactivity` calls alone can break
the claimed equality: re-creating `fight_5` replaces the finalized record
with a fresh active one, so `totalFights = 1` while no stored encounter has
`isActive == false`. -/
theorem claim5_counterexample :
    Consistent (initManager 0) ∧
    (runOps (initManager 0) collidingTrace).cumulativeStats.totalFights = 1 ∧
    countInactiveL (runOps (initManager 0) collidingTrace).fights = 0 := by
  decide

/-- C5 (amended).  From any loaded, consistent state (folded `totalFights`
equal to the number of finalized encounters, and the current pointer naming
an existing active encounter), every sequence of `recordActivity`,
`checkForInactivity`, `forceStartNewFight` and `clearHistory` calls in which
each created encounter id is fresh preserves the equality between
`cumulativeStats.totalFights` and the number of stored encounters with
`isActive == false`. -/
theorem claim5_cumulative_consistency (m : Manager) (ops : List Op)
    (h : Consistent m) (hfr : traceFresh m ops = true) :
    (runOps m ops).cumulativeStats.totalFights
      = countInactiveL (runOps m ops).fights :=
  (consistent_runOps h hfr).1

/-- C5 (witness): the consistency theorem applied to the constructor state and
a concrete id-fresh trace. -/
theorem claim5_witness :
    Consistent (initManager 0) ∧
    traceFresh (initManager 0) freshTrace = true ∧
    (runOps (initManager 0) freshTrace).cumulativeStats.totalFights
      = countInactiveL (runOps (initManager 0) freshTrace).fights := by
  refine ⟨by decide, by decide, ?_⟩
  exact claim5_cumulative_consistency (initManager 0) freshTrace (by decide) (by decide)

/-- C6 (counterexample).  After loading a snapshot whose encounter `fight_100`
is persisted active, the encounter is *not* eligible for new activity or
watchdog finalization: `recordActivity` starts a fresh encounter
`fight_1000` and leaves `fight_100` untouched, and `checkForInactivity`
is a no-op on the loaded state (no current pointer, `lastActivityTime = 0`). -/
theorem claim6_counterexample :
    mapGet (recordActivity loadedManager 1000 1000 "damage" 5).fights "fight_100"
      = some crashedFight ∧
    (recordActivity loadedManager 1000 1000 "damage" 5).currentFightId
      = some "fight_1000" ∧
    checkForInactivity loadedManager 999999 999999 = loadedManager := by
  decide

/-- C6 (amended).  A successful load restores a persisted-active encounter
field-for-field, still marked active; but since `loadFightHistory` does not
restore `currentFightId`, the encounter receives no further activity (any
`recordActivity` starts a fresh encounter and leaves it untouched) and
`checkForInactivity` never finalizes it. -/
theorem claim6_load_active (m0 : Manager) (d : HistoryData) (k : String) (f : Fight)
    (h0 : m0.currentFightId = none) (hnd : (keys d.fights).Nodup)
    (hdk : mapGet d.fights k = some f) (hf : f.isActive = true)
    (now t : Int) (ty : String) (v : Int) (hid : fightId t ≠ k) :
    mapGet (loadFightHistory m0 d).fights k = some f ∧
    (loadFightHistory m0 d).currentFightId = none ∧
    checkForInactivity (loadFightHistory m0 d) now t = loadFightHistory m0 d ∧
    mapGet (recordActivity (loadFightHistory m0 d) now t ty v).fights k = some f ∧
    (recordActivity (loadFightHistory m0 d) now t ty v).currentFightId
      = some (fightId t) := by
  have hLf : (loadFightHistory m0 d).fights = d.fights := foldl_mapSet_eq hnd
  have hL : (loadFightHistory m0 d).currentFightId = none := h0
  refine ⟨by rw [hLf]; exact hdk, hL, check_id_of_no_current now t hL, ?_, ?_⟩
  · rw [recordActivity_mapGet_other now t ty v hL hid, hLf]
    exact hdk
  · exact recordActivity_current_of_should now t ty v (by simp [shouldStartNewFight, hL])

/-- C6 (witness): the amended theorem applied to the concrete crash snapshot. -/
theorem claim6_witness :
    (initManager 0).currentFightId = none ∧
    (keys crashedHistory.fights).Nodup ∧
    mapGet crashedHistory.fights "fight_100" = some crashedFight ∧
    crashedFight.isActive = true ∧
    fightId 1000 ≠ "fight_100" ∧
    mapGet loadedManager.fights "fight_100" = some crashedFight ∧
    checkForInactivity loadedManager 999999 999999 = loadedManager ∧
    mapGet (recordActivity loadedManager 1000 1000 "healing" 5).fights "fight_100"
      = some crashedFight := by
  refine ⟨by decide, by decide, by decide, by decide, by decide, ?_, ?_, ?_⟩
  · exact (claim6_load_active (initManager 0) crashedHistory "fight_100" crashedFight
      rfl (by decide) (by decide) (by decide) 999999 999999 "healing" 5 (by decide)).1
  · exact (claim6_load_active (initManager 0) crashedHistory "fight_100" crashedFight
      rfl (by decide) (by decide) (by decide) 999999 999999 "healing" 5 (by decide)).2.2.1
  · exact (claim6_load_active (initManager 0) crashedHistory "fight_100" crashedFight
      rfl (by decide) (by decide) (by decide) 1000 1000 "healing" 5 (by decide)).2.2.2.1

/-- C7 (counterexample).  In the spec scenario the first call,
`updateFightTimeout(3000)`, is itself out of range for the validated route
(3000 < 5000), so both calls are rejected and the timeout stays at the
default 15000, not 3000; the underlying manager method performs no
validation at all and would end at 100000. -/
theorem claim7_counterexample :
    postFightTimeout (initManager 0) 3000 = Except.error invalidTimeoutMsg ∧
    (applyFightTimeoutRoute (applyFightTimeoutRoute (initManager 0) 3000)
      100000).fightTimeout = 15000 ∧
    ¬ (applyFightTimeoutRoute (applyFightTimeoutRoute (initManager 0) 3000)
      100000).fightTimeout = 3000 ∧
    (updateFightTimeout (updateFightTimeout (initManager 0) 3000)
      100000).fightTimeout = 100000 := by
  refine ⟨rfl, rfl, by decide, rfl⟩

/-- C7 (amended).  The validated `/fight/timeout` route fails with the
out-of-range error and leaves `fightTimeout` unchanged for every numeric
`ms` outside [5000, 60000], and otherwise sets `fightTimeout = ms`; in the
scenario `updateFightTimeout(3000)` followed by `updateFightTimeout(100000)`
both calls are rejected (3000 is below the lower bound), so the timeout
keeps its prior value, while the raw manager method accepts anything. -/
theorem claim7_timeout_validation (m : Manager) (ms : Int) :
    ((ms < 5000 ∨ ms > 60000) →
      postFightTimeout m ms = Except.error invalidTimeoutMsg ∧
      (applyFightTimeoutRoute m ms).fightTimeout = m.fightTimeout) ∧
    (5000 ≤ ms → ms ≤ 60000 →
      postFightTimeout m ms = Except.ok { m with fightTimeout := ms }) ∧
    (applyFightTimeoutRoute (applyFightTimeoutRoute m 3000) 100000).fightTimeout
      = m.fightTimeout ∧
    (updateFightTimeout (updateFightTimeout m 3000) 100000).fightTimeout = 100000 := by
  have hreject : ∀ (x : Manager) (ms1 : Int), (ms1 < 5000 ∨ ms1 > 60000) →
      postFightTimeout x ms1 = Except.error invalidTimeoutMsg := by
    intro x ms1 hms
    unfold postFightTimeout
    rw [if_pos]
    rcases hms with h | h <;> simp [h]
  have hroute : ∀ (x : Manager) (ms1 : Int), (ms1 < 5000 ∨ ms1 > 60000) →
      applyFightTimeoutRoute x ms1 = x := by
    intro x ms1 hms
    unfold applyFightTimeoutRoute
    rw [hreject x ms1 hms]
  refine ⟨?_, ?_, ?_, rfl⟩
  · intro hms
    refine ⟨hreject m ms hms, ?_⟩
    rw [hroute m ms hms]
  · intro h1 h2
    unfold postFightTimeout
    rw [if_neg]
    · rfl
    · simp only [Bool.or_eq_true, decide_eq_true_eq, not_or]
      constructor <;> omega
  · rw [hroute _ 100000 (Or.inr (by omega)), hroute m 3000 (Or.inl (by omega))]

/-- C7 (witness): the validation theorem applied at concrete inputs. -/
theorem claim7_witness :
    ((3000 : Int) < 5000 ∨ (3000 : Int) > 60000) ∧
    postFightTimeout (initManager 0) 3000 = Except.error invalidTimeoutMsg ∧
    (5000 : Int) ≤ 20000 ∧ (20000 : Int) ≤ 60000 ∧
    postFightTimeout (initManager 0) 20000
      = Except.ok { initManager 0 with fightTimeout := 20000 } ∧
    (applyFightTimeoutRoute (applyFightTimeoutRoute (initManager 0) 3000)
      100000).fightTimeout = (initManager 0).fightTimeout := by
  refine ⟨by decide, ?_, by decide, by decide, ?_, ?_⟩
  · exact ((claim7_timeout_validation (initManager 0) 3000).1 (Or.inl (by decide))).1
  · exact (claim7_timeout_validation (initManager 0) 20000).2.1 (by decide) (by decide)
  · exact (claim7_timeout_validation (initManager 0) 0).2.2.1

/-- C8.  Round-trip persistence: for every store with distinctly keyed
encounters (a JS `Map` guarantee) containing any number of finalized
encounters and at most one active one, loading what `saveFightHistory`
wrote reproduces the encounter set and the cumulative counters exactly,
field for field, into any manager. -/
theorem claim8_roundtrip (m m2 : Manager) (now : Int)
    (hnd : (keys m.fights).Nodup) (hact : countActiveL m.fights ≤ 1) :
    (loadFightHistory m2 (saveFightHistory m now)).fights = m.fights ∧
    (loadFightHistory m2 (saveFightHistory m now)).cumulativeStats
      = m.cumulativeStats :=
  ⟨foldl_mapSet_eq hnd, rfl⟩

/-- C8 (witness): the round trip applied to a concrete store with one
finalized and one active encounter. -/
theorem claim8_witness :
    (keys roundtripStore.fights).Nodup ∧
    countActiveL roundtripStore.fights ≤ 1 ∧
    (loadFightHistory (initManager 1) (saveFightHistory roundtripStore 99)).fights
      = roundtripStore.fights ∧
    (loadFightHistory (initManager 1) (saveFightHistory roundtripStore 99)).cumulativeStats
      = roundtripStore.cumulativeStats := by
  refine ⟨by decide, by decide, ?_, ?_⟩
  · exact (claim8_roundtrip roundtripStore (initManager 1) 99 (by decide) (by decide)).1
  · exact (claim8_roundtrip roundtripStore (initManager 1) 99 (by decide) (by decide)).2

/-- C9 (counterexample).  A negative damage value decreases the encounter's
accumulator: applying `damage -50` to `fight_0` holding 100 damage leaves
it at 50. -/
theorem claim9_counterexample :
    (mapGet scenarioM1b.fights (fightId 0)).map Fight.totalDamage = some 100 ∧
    (mapGet (updateCurrentFightStats scenarioM1b 2 "damage" (-50)).fights
      (fightId 0)).map Fight.totalDamage = some 50 ∧
    ¬ (100 : Int) ≤ 50 := by
  decide

/-- C9 (amended).  For every non-negative activity value, applying an activity
of any type through `updateCurrentFightStats` never decreases any stored
encounter's `totalDamage` or `totalHealing`; a negative value decreases the
matching accumulator (see the counterexample). -/
theorem claim9_monotone (m : Manager) (now : Int) (ty : String) (v : Int)
    (k : String) (f g : Fight) (hv : 0 ≤ v)
    (hf : mapGet m.fights k = some f)
    (hg : mapGet (updateCurrentFightStats m now ty v).fights k = some g) :
    f.totalDamage ≤ g.totalDamage ∧ f.totalHealing ≤ g.totalHealing := by
  rcases update_cases m now ty v with heq | ⟨fid, fight, f2, hc, hgt, ha, hd, hh, he, heq⟩
  · rw [heq, hf] at hg
    rw [← Option.some.inj hg]
    exact ⟨le_refl _, le_refl _⟩
  · rw [heq] at hg
    by_cases hk : k = fid
    · subst hk
      rw [show (({ m with fights := mapSet m.fights k f2 } : Manager)).fights
        = mapSet m.fights k f2 from rfl, mapGet_mapSet_self] at hg
      have hgf2 : g = f2 := (Option.some.inj hg).symm
      rw [hf] at hgt
      have hffight : f = fight := Option.some.inj hgt
      refine ⟨?_, ?_⟩
      · rw [hgf2, hd, hffight]
        split <;> omega
      · rw [hgf2, hh, hffight]
        split <;> omega
    · rw [show (({ m with fights := mapSet m.fights fid f2 } : Manager)).fights
        = mapSet m.fights fid f2 from rfl, mapGet_mapSet_ne _ _ _ _ hk, hf] at hg
      rw [← Option.some.inj hg]
      exact ⟨le_refl _, le_refl _⟩

/-- C9 (witness): the monotonicity theorem applied to `fight_0` receiving 50
further damage. -/
theorem claim9_witness :
    (0 : Int) ≤ 50 ∧
    mapGet scenarioM1b.fights (fightId 0) = some witnessFightBefore ∧
    mapGet (updateCurrentFightStats scenarioM1b 5000 "damage" 50).fights (fightId 0)
      = some witnessFightAfter ∧
    witnessFightBefore.totalDamage ≤ witnessFightAfter.totalDamage ∧
    witnessFightBefore.totalHealing ≤ witnessFightAfter.totalHealing := by
  refine ⟨by decide, by decide, by decide, ?_⟩
  exact claim9_monotone scenarioM1b 5000 "damage" 50 (fightId 0)
    witnessFightBefore witnessFightAfter (by decide) (by decide) (by decide)

/-- C10.  For every activity type other than `damage` and `healing`, updating
the current encounter leaves `totalDamage` and `totalHealing` unchanged yet
still sets `endTime` to the clock and recomputes
`duration = endTime - startTime`; every other field of the encounter, every
other stored encounter and the rest of the manager state are unchanged. -/
theorem claim10_frame (m : Manager) (now : Int) (ty : String) (v : Int)
    (fid : String) (fight : Fight)
    (hc : m.currentFightId = some fid) (hg : mapGet m.fights fid = some fight)
    (hd : ty ≠ "damage") (hh : ty ≠ "healing") :
    updateCurrentFightStats m now ty v =
      { m with
        fights := mapSet m.fights fid
          { fight with endTime := some now, duration := now - fight.startTime } } := by
  simp [updateCurrentFightStats, hc, hg, hd, hh]

/-- C10 (witness): a `buff` activity at clock 7000 stamps the time fields of
`fight_0` and changes nothing else. -/
theorem claim10_witness :
    scenarioM1b.currentFightId = some (fightId 0) ∧
    mapGet scenarioM1b.fights (fightId 0) = some witnessFightBefore ∧
    ("buff" ≠ "damage") ∧ ("buff" ≠ "healing") ∧
    updateCurrentFightStats scenarioM1b 7000 "buff" 99 =
      { scenarioM1b with
        fights := mapSet scenarioM1b.fights (fightId 0)
          { witnessFightBefore with
            endTime := some 7000
            duration := 7000 - witnessFightBefore.startTime } } := by
  refine ⟨by decide, by decide, by decide, by decide, ?_⟩
  exact claim10_frame scenarioM1b 7000 "buff" 99 (fightId 0) witnessFightBefore
    (by decide) (by decide) (by decide) (by decide)

end BPSR


